import Mathlib

/-!
Shallow embedding of `planningcenter_toolkit/cli.py`.

Python dictionaries of scalar JSON values are modelled as association
lists `List (String × Value)`; Python's `dict.get` is `dictGet` /
`dictGetD`.  Fallible Python code (subscripting that can raise
`KeyError`, `raise_for_status`, integer coercion for `+=`) is modelled
with `Option`.  HTTP traffic is modelled by giving each fetch loop the
chain of responses the server would return for the successive URLs it
requests.
-/

namespace PCT

/-- A JSON scalar / list value as it appears in the API payloads and in
the YAML configuration file. -/
inductive Value where
  | str : String → Value
  | int : Int → Value
  | bool : Bool → Value
  | null : Value
  | list : List Value → Value

/-- Python `v == s` for a `Value` against a string literal: true exactly
when `v` is that string (comparison with a non-string is `False`). -/
def isStrEq (v : Value) (s : String) : Bool :=
  match v with
  | Value.str t => t == s
  | _ => false

/-- Python `d.get(k)`: first binding of `k` in the association list
(Python dict keys are unique, so first-match is dict lookup). -/
def dictGet {α : Type} (d : List (String × α)) (k : String) : Option α :=
  (d.find? (fun kv => kv.1 == k)).map (fun kv => kv.2)

/-- Python `d.get(k, v0)`. -/
def dictGetD {α : Type} (d : List (String × α)) (k : String) (v0 : α) : α :=
  (dictGet d k).getD v0

/-- Python truthiness of a `Value`. -/
def pyTruthy : Value → Bool
  | Value.str s => !(s == "")
  | Value.int n => !(n == 0)
  | Value.bool b => b
  | Value.null => false
  | Value.list xs => !xs.isEmpty

/-- Python truthiness of an optional value (`None` is falsy). -/
def pyTruthyOpt : Option Value → Bool
  | none => false
  | some v => pyTruthy v

/-- Coercion used by Python `int += value`: succeeds on `int` (and on
`bool`, a subtype of `int` in Python), raises `TypeError` otherwise. -/
def valueToInt : Value → Option Int
  | Value.int n => some n
  | Value.bool b => some (if b then 1 else 0)
  | _ => none

/-! ## `load_authentication` (cli.py lines 11–27) -/

/-- Outcome of `load_authentication`: the returned credential pair or the
message of the raised exception. -/
inductive AuthResult where
  | ok : Value → Value → AuthResult
  | error : String → AuthResult

/-- Message of the `FileNotFoundError` raised for a missing file. -/
def configFileNotFoundMsg (config_path : String) : String :=
  "Configuration file not found at " ++ config_path ++ ". Please create it."

/-- Message of the `ValueError` raised for missing/falsy credentials. -/
def configInvalidMsg : String :=
  "The YAML file must contain both \x27client_id\x27 and \x27client_secret\x27."

/-- `load_authentication(config_path)`: `fileExists` models
`os.path.exists(config_path)` and `config` the parsed YAML mapping. -/
def load_authentication (fileExists : Bool) (config_path : String)
    (config : List (String × Value)) : AuthResult :=
  if fileExists = false then
    AuthResult.error (configFileNotFoundMsg config_path)
  else
    match dictGet config "client_id", dictGet config "client_secret" with
    | some client_id, some client_secret =>
        if pyTruthy client_id = false || pyTruthy client_secret = false then
          AuthResult.error configInvalidMsg
        else
          AuthResult.ok client_id client_secret
    | _, _ => AuthResult.error configInvalidMsg

/-! ## Records of the people payload (cli.py `fetch_people`) -/

/-- One entry of a relationship's `data` array: a `{id, type}` pointer. -/
structure RelRef where
  id : String
  type : String

/-- One record of a page's `included` array. -/
structure Rec where
  id : String
  type : String
  attributes : List (String × Value)

/-- One record of a page's `data` array (a person). -/
structure PersonRec where
  id : String
  attributes : List (String × Value)
  relationships : List (String × List RelRef)

/-- The flattened `person_info` dictionary built by `fetch_people`. -/
structure PersonInfo where
  id : String
  first_name : Option Value
  last_name : Option Value
  nickname : Option Value
  birthday : Option Value
  anniversary : Option Value
  gender : Option Value
  marital_status : Option Value
  child : Option Value
  avatar : Option Value
  status : Option Value
  inactivated_at : Option Value
  inactive_reason : Option Value
  membership : Option Value
  created_at : Option Value
  updated_at : Option Value
  graduation_year : Option Value
  medical_notes : Option Value
  school_type : Option Value
  login_identifier : Option Value
  household_count : Int
  home_street : Option Value
  home_city : Option Value
  home_state : Option Value
  home_zip : Option Value
  work_street : Option Value
  work_city : Option Value
  work_state : Option Value
  work_zip : Option Value
  phone_numbers : List Value
  emails : List Value

/-- The initial `person_info` dictionary (cli.py lines 53–89). -/
def initPersonInfo (person : PersonRec) : PersonInfo :=
  { id := person.id
    first_name := dictGet person.attributes "first_name"
    last_name := dictGet person.attributes "last_name"
    nickname := dictGet person.attributes "nickname"
    birthday := dictGet person.attributes "birthdate"
    anniversary := dictGet person.attributes "anniversary"
    gender := dictGet person.attributes "gender"
    marital_status := dictGet person.attributes "marital_status"
    child := dictGet person.attributes "child"
    avatar := dictGet person.attributes "avatar"
    status := dictGet person.attributes "status"
    inactivated_at := dictGet person.attributes "inactivated_at"
    inactive_reason := dictGet person.attributes "inactive_reason"
    membership := dictGet person.attributes "membership"
    created_at := dictGet person.attributes "created_at"
    updated_at := dictGet person.attributes "updated_at"
    graduation_year := dictGet person.attributes "graduation_year"
    medical_notes := dictGet person.attributes "medical_notes"
    school_type := dictGet person.attributes "school_type"
    login_identifier := dictGet person.attributes "login_identifier"
    household_count := 0
    home_street := none
    home_city := none
    home_state := none
    home_zip := none
    work_street := none
    work_city := none
    work_state := none
    work_zip := none
    phone_numbers := []
    emails := [] }

/-- `included_data = {item["id"]: item for item in data.get("included", [])}`
followed by `included_data.get(i)`: on duplicate ids the later item wins,
as in a Python dict comprehension. -/
def lookupIncluded (included : List Rec) (i : String) : Option Rec :=
  included.foldl (fun acc item => if item.id == i then some item else acc) none

/-- Body of the loop over `rel_data["data"]` for `rel_type ==
"phone_numbers"` (cli.py lines 95–98).  `none` models the `KeyError`
raised when a resolved phone record has no `number` attribute. -/
def processPhoneRef (included : List Rec) (info : PersonInfo) (ref : RelRef) :
    Option PersonInfo :=
  match lookupIncluded included ref.id with
  | none => some info
  | some phone =>
      match dictGet phone.attributes "number" with
      | none => none
      | some n => some { info with phone_numbers := info.phone_numbers ++ [n] }

/-- Loop body for `rel_type == "emails"` (cli.py lines 101–104). -/
def processEmailRef (included : List Rec) (info : PersonInfo) (ref : RelRef) :
    Option PersonInfo :=
  match lookupIncluded included ref.id with
  | none => some info
  | some email =>
      match dictGet email.attributes "address" with
      | none => none
      | some a => some { info with emails := info.emails ++ [a] }

/-- The four assignments of the `"Home"` branch (cli.py lines 112–115). -/
def homeUpd (info : PersonInfo) (address : Rec) : PersonInfo :=
  { info with
    home_street := dictGet address.attributes "street"
    home_city := dictGet address.attributes "city"
    home_state := dictGet address.attributes "state"
    home_zip := dictGet address.attributes "zip" }

/-- The four assignments of the `"Work"` branch (cli.py lines 117–120). -/
def workUpd (info : PersonInfo) (address : Rec) : PersonInfo :=
  { info with
    work_street := dictGet address.attributes "street"
    work_city := dictGet address.attributes "city"
    work_state := dictGet address.attributes "state"
    work_zip := dictGet address.attributes "zip" }

/-- Loop body for `rel_type == "addresses"` (cli.py lines 107–120).
`none` models the `KeyError` on a missing `location` attribute. -/
def processAddressRef (included : List Rec) (info : PersonInfo) (ref : RelRef) :
    Option PersonInfo :=
  match lookupIncluded included ref.id with
  | none => some info
  | some address =>
      match dictGet address.attributes "location" with
      | none => none
      | some address_type =>
          if isStrEq address_type "Home" then
            some (homeUpd info address)
          else if isStrEq address_type "Work" then
            some (workUpd info address)
          else
            some info

/-- Loop body for `rel_type == "households"` (cli.py lines 123–128).
`none` models the `TypeError` of `+=` on a non-integer `member_count`. -/
def processHouseholdRef (included : List Rec) (info : PersonInfo) (ref : RelRef) :
    Option PersonInfo :=
  match lookupIncluded included ref.id with
  | none => some info
  | some household_data =>
      if household_data.type = "Household" then
        match valueToInt (dictGetD household_data.attributes "member_count" (Value.int 0)) with
        | none => none
        | some member_count =>
            some { info with household_count := info.household_count + member_count }
      else
        some info

/-- Dispatch on `rel_type` (cli.py lines 93–128): one pass of the
`for rel_type, rel_data in person.get("relationships", {}).items()` loop. -/
def processRel (included : List Rec) (info : PersonInfo)
    (rel_type : String) (rel_data : List RelRef) : Option PersonInfo :=
  if rel_type = "phone_numbers" then
    rel_data.foldlM (processPhoneRef included) info
  else if rel_type = "emails" then
    rel_data.foldlM (processEmailRef included) info
  else if rel_type = "addresses" then
    rel_data.foldlM (processAddressRef included) info
  else if rel_type = "households" then
    rel_data.foldlM (processHouseholdRef included) info
  else
    some info

/-- Flattening of one person against the page's `included` array
(cli.py lines 53–128). -/
def flattenPerson (person : PersonRec) (included : List Rec) : Option PersonInfo :=
  person.relationships.foldlM
    (fun info entry => processRel included info entry.1 entry.2)
    (initPersonInfo person)

/-! ## The paginated people fetch (cli.py lines 30–138)

The server is modelled as the chain of responses it returns for the
successive URLs the loop requests: the head of the list answers the
current URL, the tail answers the pages reached through `links.next`. -/

/-- One response of the people endpoint.  `next` tells whether
`data.get("links", {}).get("next")` is a non-null URL. -/
structure PeoplePage where
  status : Nat
  data : List PersonRec
  included : List Rec
  next : Bool

/-- The `for person in data["data"]` loop (cli.py lines 49–130):
stops adding people once `len(people_list) >= limit`. -/
def processPagePersons (limit : Nat) (included : List Rec) :
    List PersonRec → List PersonInfo → Option (List PersonInfo)
  | [], acc => some acc
  | person :: rest, acc =>
      if limit ≤ acc.length then some acc
      else
        match flattenPerson person included with
        | none => none
        | some info => processPagePersons limit included rest (acc ++ [info])

/-- The `while next_page` loop of `fetch_people` (cli.py lines 43–136).
`response.raise_for_status()` on a non-2xx status is modelled by `none`. -/
def fetch_people_loop (limit : Nat) :
    List PeoplePage → List PersonInfo → Option (List PersonInfo)
  | [], acc => some acc
  | page :: rest, acc =>
      if 200 ≤ page.status ∧ page.status < 300 then
        match processPagePersons limit page.included page.data acc with
        | none => none
        | some acc2 =>
            if limit ≤ acc2.length then some acc2
            else if page.next then fetch_people_loop limit rest acc2
            else some acc2
      else none

/-- `fetch_people(client_id, client_secret, limit)` against a server
answering with `chain` (cli.py lines 30–138). -/
def fetch_people (chain : List PeoplePage) (limit : Nat) : Option (List PersonInfo) :=
  fetch_people_loop limit chain []

/-! ## `get_paginated_results` (cli.py lines 375–385) -/

/-- One response of a generic paginated endpoint. -/
structure PResponse (α : Type) where
  status : Nat
  data : List α
  next : Bool

/-- The diagnostic printed on a non-200 status (cli.py line 380). -/
def paginatedDiagnostic (status : Nat) : String :=
  "Error fetching data: Status code " ++ toString status

/-- The `while url` loop of `get_paginated_results`, also collecting the
printed diagnostics (cli.py lines 377–384). -/
def get_paginated_loop {α : Type} :
    List (PResponse α) → List α → List String → List α × List String
  | [], results, msgs => (results, msgs)
  | r :: rest, results, msgs =>
      if r.status ≠ 200 then (results, msgs ++ [paginatedDiagnostic r.status])
      else
        let results2 := results ++ r.data
        if r.next then get_paginated_loop rest results2 msgs
        else (results2, msgs)

/-- `get_paginated_results(url, auth)` against a server answering with
`chain`: returns the accumulated records and the printed diagnostics. -/
def get_paginated_results {α : Type} (chain : List (PResponse α)) :
    List α × List String :=
  get_paginated_loop chain [] []

/-! ## `fetch_teams` (cli.py lines 294–305) -/

/-- One record of the teams endpoint's `data` array. -/
structure TeamRec where
  id : String
  attributes : List (String × Value)

/-- One response of the teams endpoint. -/
structure TeamsPage where
  status : Nat
  data : List TeamRec
  next : Bool

/-- The dictionary built per team by the list comprehension on line 305. -/
structure TeamInfo where
  id : String
  name : Value
  positions : Value

/-- `{"id": team["id"], "name": team["attributes"]["name"], "positions":
team["attributes"].get("positions", [])}`; `none` models the `KeyError`
on a missing `name` attribute. -/
def mkTeamInfo (team : TeamRec) : Option TeamInfo :=
  match dictGet team.attributes "name" with
  | none => none
  | some nm =>
      some { id := team.id
             name := nm
             positions := dictGetD team.attributes "positions" (Value.list []) }

/-- `fetch_teams(client_id, client_secret, limit)` against a server whose
chain of pages for the teams collection is `chain`: the code issues a
single GET (only the head response is consulted), maps `data`, and slices
`[:limit]`.  `none` models `raise_for_status` or a `KeyError`. -/
def fetch_teams (chain : List TeamsPage) (limit : Nat) : Option (List TeamInfo) :=
  match chain with
  | [] => none
  | response :: _ =>
      if 200 ≤ response.status ∧ response.status < 300 then
        match response.data.mapM mkTeamInfo with
        | none => none
        | some teams => some (teams.take limit)
      else none

/-- Spec-side description of a teams fetch, following the spec wording:
repeatedly take the current page's `data` records and continue with the
next page while `links.next` is present, then flatten and truncate to the
limit.  Used to compare the code's behaviour with the claimed one. -/
def collectTeamPages : List TeamsPage → List TeamRec
  | [] => []
  | page :: rest => page.data ++ (if page.next then collectTeamPages rest else [])

/-- Spec-side teams fetch (see `collectTeamPages`): every team across all
followed pages, up to the limit. -/
def fetchTeamsClaimed (chain : List TeamsPage) (limit : Nat) : Option (List TeamInfo) :=
  match (collectTeamPages chain).mapM mkTeamInfo with
  | none => none
  | some teams => some (teams.take limit)

/-! ## `clear team-position`, step 4 (cli.py lines 437–448) -/

/-- One person-team-position assignment record. -/
structure Assignment where
  id : String

/-- One line printed by the deletion loop or its closing line. -/
inductive DelMsg where
  | success : String → String → String → DelMsg
  | failure : String → Nat → DelMsg
  | summary : String → String → DelMsg

/-- Whether a printed line is a per-assignment success message. -/
def DelMsg.isSuccess : DelMsg → Bool
  | DelMsg.success _ _ _ => true
  | _ => false

/-- Whether a printed line is a per-assignment failure message. -/
def DelMsg.isFailure : DelMsg → Bool
  | DelMsg.failure _ _ => true
  | _ => false

/-- The `for assignment in assignments` deletion loop followed by the
final `print` (cli.py lines 438–448).  `deleteStatus` gives the HTTP
status the DELETE for each assignment id returns; the result is the
sequence of printed lines. -/
def clear_assignments (assignments : List Assignment) (deleteStatus : String → Nat)
    (team_position_name service_type_name : String) : List DelMsg :=
  (assignments.map (fun a =>
    if deleteStatus a.id = 204 then
      DelMsg.success a.id team_position_name service_type_name
    else
      DelMsg.failure a.id (deleteStatus a.id)))
  ++ [DelMsg.summary team_position_name service_type_name]

/-! ## `init` / `create_default_config` (cli.py lines 262–291) -/

/-- cli.py line 9. -/
def DEFAULT_CONFIG_PATH : String := "~/.planningcenter_toolkit/pat.yaml"

/-- The `default_config` dictionary written by `create_default_config`
(cli.py lines 267–270). -/
def default_config : List (String × Value) :=
  [("client_id", Value.str "your_client_id_here"),
   ("client_secret", Value.str "your_client_secret_here")]

/-- Outcome of the `init` command: the placeholder file it would write,
or the `TypeError` of a call with the wrong number of arguments. -/
inductive InitResult where
  | created : String → List (String × Value) → InitResult
  | typeError : InitResult

/-- `create_default_config` declares no parameters (cli.py line 262). -/
def create_default_config_arity : Nat := 0

/-- The body of `create_default_config` (cli.py lines 267–279): writes
`default_config` at the fixed `DEFAULT_CONFIG_PATH`. -/
def create_default_config_body : InitResult :=
  InitResult.created DEFAULT_CONFIG_PATH default_config

/-- `init(config)` (cli.py lines 287–291): calls
`create_default_config(config)` with one positional argument.  Python
checks the callee's parameter count before running its body, so the call
raises `TypeError` when the counts differ. -/
def init (config : String) : InitResult :=
  if 1 = create_default_config_arity then create_default_config_body
  else InitResult.typeError

/-! ## Spec-side descriptions of the flattening

These definitions transcribe the spec's description of the relationship
resolver and are compared with the code's `flattenPerson`. -/

/-- The records the ids of a relationship array resolve to, in array
order; unresolved ids are skipped. -/
def resolvedRecs (refs : List RelRef) (included : List Rec) : List Rec :=
  refs.filterMap (fun r => lookupIncluded included r.id)

/-- Spec-side phone list: the `number` attribute of each resolved phone
record, in array order. -/
def phoneNumbersSpec (refs : List RelRef) (included : List Rec) : List Value :=
  refs.filterMap (fun r =>
    (lookupIncluded included r.id).bind (fun p => dictGet p.attributes "number"))

/-- Spec-side email list: the `address` attribute of each resolved email
record, in array order. -/
def emailsSpec (refs : List RelRef) (included : List Rec) : List Value :=
  refs.filterMap (fun r =>
    (lookupIncluded included r.id).bind (fun e => dictGet e.attributes "address"))

/-- Spec-side household count: the sum of `member_count` (default 0) over
the resolved records whose declared type is `"Household"`. -/
def householdCountSpec (refs : List RelRef) (included : List Rec) : Int :=
  (((resolvedRecs refs included).filter (fun rec => rec.type == "Household")).map
    (fun rec => (valueToInt (dictGetD rec.attributes "member_count" (Value.int 0))).getD 0)).sum

/-- Whether a resolved address record's `location` attribute equals the
given string (case-sensitive exact match). -/
def locatedAt (rec : Rec) (loc : String) : Bool :=
  match dictGet rec.attributes "location" with
  | none => false
  | some v => isStrEq v loc

/-- Spec-side: the last resolved address of the given location type, in
relationship-array order. -/
def lastAddressAt (refs : List RelRef) (included : List Rec) (loc : String) :
    Option Rec :=
  ((resolvedRecs refs included).filter (fun rec => locatedAt rec loc)).getLast?

/-- Spec-side effect of the addresses relationship: the last `"Home"`
address (if any) overwrites the four home fields and the last `"Work"`
address the four work fields. -/
def applyAddressesSpec (refs : List RelRef) (included : List Rec)
    (info : PersonInfo) : PersonInfo :=
  let info1 :=
    match lastAddressAt refs included "Home" with
    | none => info
    | some a => homeUpd info a
  match lastAddressAt refs included "Work" with
  | none => info1
  | some a => workUpd info1 a

/-- Spec-side effect of one relationship entry on the flat record. -/
def applyRelSpec (included : List Rec) (info : PersonInfo)
    (rel_type : String) (rel_data : List RelRef) : PersonInfo :=
  if rel_type = "phone_numbers" then
    { info with phone_numbers := info.phone_numbers ++ phoneNumbersSpec rel_data included }
  else if rel_type = "emails" then
    { info with emails := info.emails ++ emailsSpec rel_data included }
  else if rel_type = "addresses" then
    applyAddressesSpec rel_data included info
  else if rel_type = "households" then
    { info with household_count := info.household_count + householdCountSpec rel_data included }
  else info

/-- Spec-side flattening: each relationship entry applied in order. -/
def flattenPersonSpec (person : PersonRec) (included : List Rec) : PersonInfo :=
  person.relationships.foldl
    (fun info entry => applyRelSpec included info entry.1 entry.2)
    (initPersonInfo person)

/-! ## Well-formedness: the data conditions under which the Python code
raises no exception while processing a relationship array. -/

/-- A single relationship pointer is processable: if it resolves, the
resolved record carries the attribute the branch subscripts (and, for a
household, an integer `member_count`). -/
def refWF (included : List Rec) (rel_type : String) (r : RelRef) : Bool :=
  match lookupIncluded included r.id with
  | none => true
  | some rec =>
      (!(rel_type == "phone_numbers") || (dictGet rec.attributes "number").isSome) &&
      (!(rel_type == "emails") || (dictGet rec.attributes "address").isSome) &&
      (!(rel_type == "addresses") || (dictGet rec.attributes "location").isSome) &&
      (!(rel_type == "households") || !(rec.type == "Household") ||
        (valueToInt (dictGetD rec.attributes "member_count" (Value.int 0))).isSome)

/-- Every pointer of a relationship entry is processable. -/
def relEntryWF (included : List Rec) (rel_type : String) (rel_data : List RelRef) : Prop :=
  ∀ r ∈ rel_data, refWF included rel_type r = true

/-- Every relationship entry of the person is processable. -/
def personWF (person : PersonRec) (included : List Rec) : Prop :=
  ∀ entry ∈ person.relationships, relEntryWF included entry.1 entry.2

/-! ## Derived page-level notions used by the pagination claims. -/

/-- The flattening of every person of every page, each against its own
page's `included` array, in page order. -/
def flattenPages (pages : List PeoplePage) : List PersonInfo :=
  pages.flatMap (fun pg => pg.data.filterMap (fun p => flattenPerson p pg.included))

/-- The total number of person records across the pages' `data` arrays. -/
def peopleTotal (pages : List PeoplePage) : Nat :=
  (pages.map (fun pg => pg.data.length)).sum

/-- Every page except possibly the last carries a next-page link. -/
def chainNexts : List PeoplePage → Bool
  | [] => true
  | [_] => true
  | pg :: rest => pg.next && chainNexts rest

/-- The last page of the chain carries no next-page link. -/
def lastNoNext (pages : List PeoplePage) : Bool :=
  match pages.getLast? with
  | none => true
  | some pg => !pg.next

/-- The eight address fields of a flat record, home group then work
group. -/
def addrFields (info : PersonInfo) :
    (Option Value × Option Value × Option Value × Option Value)
      × (Option Value × Option Value × Option Value × Option Value) :=
  ((info.home_street, info.home_city, info.home_state, info.home_zip),
   (info.work_street, info.work_city, info.work_state, info.work_zip))

/-- Spec-side effect of an addresses relationship on the eight address
fields: the last resolved address of each location type overwrites its
group of four. -/
def addrEffect (included : List Rec) (rd : List RelRef)
    (x : (Option Value × Option Value × Option Value × Option Value)
      × (Option Value × Option Value × Option Value × Option Value)) :
    (Option Value × Option Value × Option Value × Option Value)
      × (Option Value × Option Value × Option Value × Option Value) :=
  (match lastAddressAt rd included "Home" with
   | none => x.1
   | some a => (dictGet a.attributes "street", dictGet a.attributes "city",
       dictGet a.attributes "state", dictGet a.attributes "zip"),
   match lastAddressAt rd included "Work" with
   | none => x.2
   | some a => (dictGet a.attributes "street", dictGet a.attributes "city",
       dictGet a.attributes "state", dictGet a.attributes "zip"))

/-- A two-page teams listing: the first page links to the second. -/
def teamsCex : List TeamsPage :=
  [{ status := 200
     data := [{ id := "1", attributes := [("name", Value.str "Alpha")] }]
     next := true },
   { status := 200
     data := [{ id := "2", attributes := [("name", Value.str "Beta")] }]
     next := false }]

end PCT

namespace PCT

/-! ## Theorems -/

/-- C8 (code evaluated at the failing input): every invocation of the
`init` command raises `TypeError`, because `init` passes its `config`
argument to `create_default_config`, which accepts no parameters
(cli.py lines 262, 291); no placeholder file is ever created. -/
theorem init_always_raises_typeError (config : String) :
    init config = InitResult.typeError := rfl

/-- C9: the deletion workflow always ends with the summary line claiming
all assignments have been removed — also when some or all per-assignment
deletions returned a non-204 status. -/
theorem clear_assignments_summary_unconditional (assignments : List Assignment)
    (deleteStatus : String → Nat) (tp st : String) :
    (clear_assignments assignments deleteStatus tp st).getLast?
      = some (DelMsg.summary tp st) := by
  unfold clear_assignments
  exact List.getLast?_concat _

/-- C6: with N assignments of which M delete with status 204, exactly M
success lines and N − M failure lines are printed, every assignment is
processed (N + 1 lines in total, so no failure halts the loop), and the
workflow is a total function (no exception). -/
theorem clear_assignments_message_counts (assignments : List Assignment)
    (deleteStatus : String → Nat) (tp st : String) :
    ((clear_assignments assignments deleteStatus tp st).filter DelMsg.isSuccess).length
        = (assignments.filter (fun a => deleteStatus a.id == 204)).length
      ∧ ((clear_assignments assignments deleteStatus tp st).filter DelMsg.isFailure).length
        = assignments.length
          - (assignments.filter (fun a => deleteStatus a.id == 204)).length
      ∧ (clear_assignments assignments deleteStatus tp st).length
        = assignments.length + 1 := by
  unfold clear_assignments
  induction assignments with
  | nil => simp [DelMsg.isSuccess, DelMsg.isFailure]
  | cons a l ih =>
      obtain ⟨ih1, ih2, ih3⟩ := ih
      have hle := List.length_filter_le (fun a => deleteStatus a.id == 204) l
      by_cases h : deleteStatus a.id = 204 <;>
        simp only [List.map_cons, List.cons_append, List.filter_cons, List.length_cons,
          h, if_pos, if_neg, DelMsg.isSuccess, DelMsg.isFailure, beq_iff_eq,
          if_true, if_false, reduceIte] <;>
        simp_all <;> omega

/-- C10: whenever either credential looked up in the configuration
mapping is missing or falsy (empty string, null, 0, …), an existing
configuration file is rejected with the `ValueError` whose message names
both required keys; no credential pair is returned. -/
theorem load_authentication_rejects_falsy_credentials (config_path : String)
    (config : List (String × Value))
    (h : pyTruthyOpt (dictGet config "client_id") = false
       ∨ pyTruthyOpt (dictGet config "client_secret") = false) :
    load_authentication true config_path config = AuthResult.error configInvalidMsg
      ∧ "client_id".toList <:+: configInvalidMsg.toList
      ∧ "client_secret".toList <:+: configInvalidMsg.toList := by
  refine ⟨?_, by decide, by decide⟩
  rcases h1 : dictGet config "client_id" with _ | cid
  · simp [load_authentication, h1]
  · rcases h2 : dictGet config "client_secret" with _ | cs
    · simp [load_authentication, h1, h2]
    · rw [h1, h2] at h
      simp only [pyTruthyOpt] at h
      rcases h with h | h <;> simp [load_authentication, h1, h2, h]

/-- Witness for `load_authentication_rejects_falsy_credentials`: a file
carrying an empty-string `client_id` is rejected. -/
theorem load_authentication_rejects_falsy_credentials_witness :
    load_authentication true "pat.yaml"
        [("client_id", Value.str ""), ("client_secret", Value.str "secret_value")]
      = AuthResult.error configInvalidMsg
      ∧ "client_id".toList <:+: configInvalidMsg.toList
      ∧ "client_secret".toList <:+: configInvalidMsg.toList :=
  load_authentication_rejects_falsy_credentials "pat.yaml"
    [("client_id", Value.str ""), ("client_secret", Value.str "secret_value")]
    (Or.inl (by decide))

/-- C7 counterexample: on a two-page teams listing the code returns only
the first page's team, not the accumulation across followed pages that
the claim describes (`fetchTeamsClaimed`). -/
theorem fetch_teams_not_paginated_cex :
    fetch_teams teamsCex 10 ≠ fetchTeamsClaimed teamsCex 10
      ∧ (fetch_teams teamsCex 10).map List.length = some 1
      ∧ (fetchTeamsClaimed teamsCex 10).map List.length = some 2 := by
  refine ⟨?_, rfl, rfl⟩
  intro h
  have h2 : (some 1 : Option Nat) = some 2 := by
    calc (some 1 : Option Nat)
        = (fetch_teams teamsCex 10).map List.length := rfl
      _ = (fetchTeamsClaimed teamsCex 10).map List.length := by rw [h]
      _ = some 2 := rfl
  simp at h2

/-- C7 amended: `fetch_teams` issues a single GET: for any server chain it
returns the first response's `data` records (flattened) truncated to the
limit, never consulting the next-page link or any later page. -/
theorem fetch_teams_first_page_only (response : TeamsPage) (rest : List TeamsPage)
    (limit : Nat) (teams : List TeamInfo)
    (hst : 200 ≤ response.status ∧ response.status < 300)
    (hm : response.data.mapM mkTeamInfo = some teams) :
    fetch_teams (response :: rest) limit = some (teams.take limit) := by
  simp only [fetch_teams]
  rw [if_pos hst, hm]

/-- Witness for `fetch_teams_first_page_only` at the two-page listing. -/
theorem fetch_teams_first_page_only_witness :
    fetch_teams teamsCex 10
      = some (([{ id := "1", name := Value.str "Alpha", positions := Value.list [] }]
          : List TeamInfo).take 10) :=
  fetch_teams_first_page_only
    { status := 200
      data := [{ id := "1", attributes := [("name", Value.str "Alpha")] }]
      next := true }
    [{ status := 200
       data := [{ id := "2", attributes := [("name", Value.str "Beta")] }]
       next := false }]
    10 _ (by decide) rfl

/-- The generic paginated loop on a chain of 200-status pages followed by
a non-200 page: it accumulates the good pages' data, prints one
diagnostic, and stops. -/
theorem getPaginatedLoopSpec {α : Type} (bad : PResponse α) (rest : List (PResponse α))
    (hbad : bad.status ≠ 200) :
    ∀ (good : List (PResponse α)) (acc : List α) (msgs : List String),
      (∀ r ∈ good, r.status = 200 ∧ r.next = true) →
      get_paginated_loop (good ++ bad :: rest) acc msgs
        = (acc ++ good.flatMap (fun r => r.data), msgs ++ [paginatedDiagnostic bad.status])
  | [], acc, msgs, _ => by
      simp [get_paginated_loop, hbad]
  | r :: rs, acc, msgs, hgood => by
      have hr := hgood r (List.mem_cons_self r rs)
      have ih := getPaginatedLoopSpec bad rest hbad rs (acc ++ r.data) msgs
        (fun x hx => hgood x (List.mem_cons_of_mem r hx))
      simp only [List.cons_append, get_paginated_loop, hr.1, hr.2, if_true, ne_eq,
        not_true_eq_false, if_false, reduceIte, List.append_eq]
      rw [ih]
      simp

/-- When every person of a page flattens and the limit is not yet
reached by the end of the page, the per-page loop appends the whole
page's flattening. -/
theorem processPagePersons_complete (limit : Nat) (included : List Rec) :
    ∀ (ps : List PersonRec) (acc : List PersonInfo),
      (∀ p ∈ ps, (flattenPerson p included).isSome = true) →
      acc.length + ps.length ≤ limit →
      processPagePersons limit included ps acc
        = some (acc ++ ps.filterMap (fun p => flattenPerson p included))
  | [], acc, _, _ => by simp [processPagePersons]
  | p :: rest, acc, hok, hlen => by
      have hlt : ¬ limit ≤ acc.length := by
        simp only [List.length_cons] at hlen; omega
      obtain ⟨info, hinfo⟩ :=
        Option.isSome_iff_exists.mp (hok p (List.mem_cons_self p rest))
      have ih := processPagePersons_complete limit included rest (acc ++ [info])
        (fun x hx => hok x (List.mem_cons_of_mem p hx))
        (by simp only [List.length_append, List.length_cons, List.length_nil] at hlen ⊢; omega)
      simp only [processPagePersons, hlt, if_false, reduceIte, hinfo]
      rw [ih]
      simp [List.filterMap_cons, hinfo]

/-- `filterMap` over a list on which the function never fails keeps the
length. -/
theorem filterMap_length_of_isSome {α β : Type} (f : α → Option β) :
    ∀ l : List α, (∀ x ∈ l, (f x).isSome = true) → (l.filterMap f).length = l.length
  | [], _ => rfl
  | x :: xs, h => by
      obtain ⟨y, hy⟩ := Option.isSome_iff_exists.mp (h x (List.mem_cons_self x xs))
      simp [List.filterMap_cons, hy,
        filterMap_length_of_isSome f xs (fun z hz => h z (List.mem_cons_of_mem x hz))]

/-- `peopleTotal` unfolded over a cons. -/
theorem peopleTotal_cons (pg : PeoplePage) (gs : List PeoplePage) :
    peopleTotal (pg :: gs) = pg.data.length + peopleTotal gs := by
  simp [peopleTotal]

/-- The people loop on good pages followed by a non-2xx page: the bad
page is reached (the limit is never hit) and the whole fetch aborts. -/
theorem fetch_people_loop_aborts (limit : Nat) (bad : PeoplePage)
    (rest : List PeoplePage) (hbad : ¬ (200 ≤ bad.status ∧ bad.status < 300)) :
    ∀ (good : List PeoplePage) (acc : List PersonInfo),
      (∀ pg ∈ good, (200 ≤ pg.status ∧ pg.status < 300) ∧ pg.next = true
          ∧ ∀ p ∈ pg.data, (flattenPerson p pg.included).isSome = true) →
      acc.length + peopleTotal good < limit →
      fetch_people_loop limit (good ++ bad :: rest) acc = none
  | [], acc, _, _ => by simp [fetch_people_loop, hbad]
  | pg :: gs, acc, hgood, hlen => by
      have hpg := hgood pg (List.mem_cons_self pg gs)
      rw [peopleTotal_cons] at hlen
      have hproc := processPagePersons_complete limit pg.included pg.data acc
        hpg.2.2 (by omega)
      have hlen2 : (acc ++ pg.data.filterMap (fun p => flattenPerson p pg.included)).length
          = acc.length + pg.data.length := by
        simp [filterMap_length_of_isSome _ pg.data hpg.2.2]
      have hlt : ¬ limit ≤ (acc ++ pg.data.filterMap (fun p => flattenPerson p pg.included)).length := by
        rw [hlen2]; omega
      have ih := fetch_people_loop_aborts limit bad rest hbad gs
        (acc ++ pg.data.filterMap (fun p => flattenPerson p pg.included))
        (fun x hx => hgood x (List.mem_cons_of_mem pg hx))
        (by rw [hlen2]; omega)
      simp only [List.cons_append, fetch_people_loop, hpg.1, if_true, hproc, hlt,
        if_false, reduceIte, hpg.2.1]
      exact ih

/-- C5: the two read paths treat HTTP failures differently.  (a) The
generic paginated helper, hitting a non-200 page, prints one diagnostic
and returns the records accumulated from the earlier pages — partial
results, no exception.  (b) `fetch_people`, hitting a non-2xx page before
the limit is reached, raises immediately: the whole fetch aborts with no
partial result. -/
theorem http_failure_policy_divergence :
    (∀ (α : Type) (good : List (PResponse α)) (bad : PResponse α)
        (rest : List (PResponse α)),
      (∀ r ∈ good, r.status = 200 ∧ r.next = true) →
      bad.status ≠ 200 →
      get_paginated_results (good ++ bad :: rest)
        = (good.flatMap (fun r => r.data), [paginatedDiagnostic bad.status]))
    ∧ (∀ (good : List PeoplePage) (bad : PeoplePage) (rest : List PeoplePage)
        (limit : Nat),
      (∀ pg ∈ good, (200 ≤ pg.status ∧ pg.status < 300) ∧ pg.next = true
          ∧ ∀ p ∈ pg.data, (flattenPerson p pg.included).isSome = true) →
      peopleTotal good < limit →
      ¬ (200 ≤ bad.status ∧ bad.status < 300) →
      fetch_people (good ++ bad :: rest) limit = none) := by
  constructor
  · intro α good bad rest hgood hbad
    have h := getPaginatedLoopSpec bad rest hbad good [] [] hgood
    simpa [get_paginated_results] using h
  · intro good bad rest limit hgood hlim hbad
    have h := fetch_people_loop_aborts limit bad rest hbad good [] hgood
      (by simpa using hlim)
    simpa [fetch_people] using h

/-- Witness for `http_failure_policy_divergence`: one good page then a
404 for the helper; one good page of one person then a 500 for the
people fetch. -/
theorem http_failure_policy_divergence_witness :
    get_paginated_results
        ([{ status := 200, data := [(5 : Nat)], next := true }]
          ++ { status := 404, data := ([] : List Nat), next := true } :: [])
      = ([5], [paginatedDiagnostic 404])
    ∧ fetch_people
        ([{ status := 200, data := [{ id := "p1", attributes := [], relationships := [] }],
            included := [], next := true }]
          ++ { status := 500, data := [], included := [], next := false } :: []) 10
      = none := by
  constructor
  · have h := http_failure_policy_divergence.1 Nat
      [{ status := 200, data := [(5 : Nat)], next := true }]
      { status := 404, data := ([] : List Nat), next := true } []
      (by decide) (by decide)
    simpa using h
  · have h := http_failure_policy_divergence.2
      [{ status := 200, data := [{ id := "p1", attributes := [], relationships := [] }],
         included := [], next := true }]
      { status := 500, data := [], included := [], next := false } [] 10
      (by decide) (by decide) (by decide)
    simpa using h

/-! ### Characterization of the relationship flattening -/

/-- `getLast?` of a cons, expressed through the tail's `getLast?`. -/
theorem getLast?_cons_getD {α : Type} : ∀ (l : List α) (a : α),
    (a :: l).getLast? = some (l.getLast?.getD a)
  | [], _ => rfl
  | b :: bs, a => by
      rw [show (a :: b :: bs).getLast? = (b :: bs).getLast? from rfl,
        getLast?_cons_getD bs b]
      rfl

/-- A value equal (in the Python sense) to one string is not equal to a
different string. -/
theorem isStrEq_ne (v : Value) (s t : String) (h : isStrEq v s = true)
    (hst : s ≠ t) : isStrEq v t = false := by
  cases v <;> simp only [isStrEq, beq_iff_eq] at h ⊢
  all_goals first
    | rfl
    | (subst h; simpa using hst)
    | exact absurd h (by simp)

/-- A later home overwrite supersedes an earlier one. -/
theorem homeUpd_homeUpd (info : PersonInfo) (a b : Rec) :
    homeUpd (homeUpd info a) b = homeUpd info b := rfl

/-- A later work overwrite supersedes an earlier one. -/
theorem workUpd_workUpd (info : PersonInfo) (a b : Rec) :
    workUpd (workUpd info a) b = workUpd info b := rfl

/-- Home and work overwrites touch disjoint fields and commute. -/
theorem homeUpd_workUpd (info : PersonInfo) (a b : Rec) :
    homeUpd (workUpd info a) b = workUpd (homeUpd info b) a := rfl

/-- The phone loop appends exactly the resolved `number` attributes. -/
theorem foldPhones_spec (included : List Rec) :
    ∀ (rd : List RelRef) (info : PersonInfo),
      (∀ r ∈ rd, refWF included "phone_numbers" r = true) →
      rd.foldlM (processPhoneRef included) info
        = some { info with phone_numbers := info.phone_numbers ++ phoneNumbersSpec rd included }
  | [], info, _ => by simp [phoneNumbersSpec]
  | r :: rs, info, h => by
      have hr := h r (List.mem_cons_self r rs)
      have htail : ∀ x ∈ rs, refWF included "phone_numbers" x = true :=
        fun x hx => h x (List.mem_cons_of_mem r hx)
      rcases hl : lookupIncluded included r.id with _ | rec
      · have ih := foldPhones_spec included rs info htail
        simp [List.foldlM_cons, processPhoneRef, hl, ih, phoneNumbersSpec,
          List.filterMap_cons]
      · have hnum : (dictGet rec.attributes "number").isSome = true := by
          simpa [refWF, hl] using hr
        obtain ⟨n, hn⟩ := Option.isSome_iff_exists.mp hnum
        have ih := foldPhones_spec included rs
          { info with phone_numbers := info.phone_numbers ++ [n] } htail
        simp [List.foldlM_cons, processPhoneRef, hl, hn, ih, phoneNumbersSpec,
          List.filterMap_cons, List.append_assoc]

/-- The email loop appends exactly the resolved `address` attributes. -/
theorem foldEmails_spec (included : List Rec) :
    ∀ (rd : List RelRef) (info : PersonInfo),
      (∀ r ∈ rd, refWF included "emails" r = true) →
      rd.foldlM (processEmailRef included) info
        = some { info with emails := info.emails ++ emailsSpec rd included }
  | [], info, _ => by simp [emailsSpec]
  | r :: rs, info, h => by
      have hr := h r (List.mem_cons_self r rs)
      have htail : ∀ x ∈ rs, refWF included "emails" x = true :=
        fun x hx => h x (List.mem_cons_of_mem r hx)
      rcases hl : lookupIncluded included r.id with _ | rec
      · have ih := foldEmails_spec included rs info htail
        simp [List.foldlM_cons, processEmailRef, hl, ih, emailsSpec,
          List.filterMap_cons]
      · have haddr : (dictGet rec.attributes "address").isSome = true := by
          simpa [refWF, hl] using hr
        obtain ⟨a, ha⟩ := Option.isSome_iff_exists.mp haddr
        have ih := foldEmails_spec included rs
          { info with emails := info.emails ++ [a] } htail
        simp [List.foldlM_cons, processEmailRef, hl, ha, ih, emailsSpec,
          List.filterMap_cons, List.append_assoc]

/-- The household loop adds exactly the spec-side member-count sum. -/
theorem foldHouseholds_spec (included : List Rec) :
    ∀ (rd : List RelRef) (info : PersonInfo),
      (∀ r ∈ rd, refWF included "households" r = true) →
      rd.foldlM (processHouseholdRef included) info
        = some { info with household_count := info.household_count + householdCountSpec rd included }
  | [], info, _ => by simp [householdCountSpec, resolvedRecs]
  | r :: rs, info, h => by
      have hr := h r (List.mem_cons_self r rs)
      have htail : ∀ x ∈ rs, refWF included "households" x = true :=
        fun x hx => h x (List.mem_cons_of_mem r hx)
      rcases hl : lookupIncluded included r.id with _ | rec
      · have ih := foldHouseholds_spec included rs info htail
        simp [List.foldlM_cons, processHouseholdRef, hl, ih, householdCountSpec,
          resolvedRecs, List.filterMap_cons]
      · by_cases ht : rec.type = "Household"
        · have hmc : (valueToInt (dictGetD rec.attributes "member_count" (Value.int 0))).isSome
              = true := by
            simpa [refWF, hl, ht] using hr
          obtain ⟨mc, hmcv⟩ := Option.isSome_iff_exists.mp hmc
          have ih := foldHouseholds_spec included rs
            { info with household_count := info.household_count + mc } htail
          simp [List.foldlM_cons, processHouseholdRef, hl, ht, hmcv, ih,
            householdCountSpec, resolvedRecs, List.filterMap_cons, List.filter_cons,
            Int.add_assoc]
        · have ih := foldHouseholds_spec included rs info htail
          simp [List.foldlM_cons, processHouseholdRef, hl, ht, ih, householdCountSpec,
            resolvedRecs, List.filterMap_cons, List.filter_cons]

/-- The address loop realizes the last-of-each-location-type overwrite
semantics. -/
theorem foldAddresses_spec (included : List Rec) :
    ∀ (rd : List RelRef) (info : PersonInfo),
      (∀ r ∈ rd, refWF included "addresses" r = true) →
      rd.foldlM (processAddressRef included) info
        = some (applyAddressesSpec rd included info)
  | [], info, _ => by simp [applyAddressesSpec, lastAddressAt, resolvedRecs]
  | r :: rs, info, h => by
      have hr := h r (List.mem_cons_self r rs)
      have htail : ∀ x ∈ rs, refWF included "addresses" x = true :=
        fun x hx => h x (List.mem_cons_of_mem r hx)
      rcases hl : lookupIncluded included r.id with _ | rec
      · have ih := foldAddresses_spec included rs info htail
        simp [List.foldlM_cons, processAddressRef, hl, ih, applyAddressesSpec,
          lastAddressAt, resolvedRecs, List.filterMap_cons]
      · have hlocS : (dictGet rec.attributes "location").isSome = true := by
          simpa [refWF, hl] using hr
        obtain ⟨loc, hloc⟩ := Option.isSome_iff_exists.mp hlocS
        cases hh : isStrEq loc "Home" with
        | true =>
            have hlocH : locatedAt rec "Home" = true := by simp [locatedAt, hloc, hh]
            have hlocW : locatedAt rec "Work" = false := by
              simp [locatedAt, hloc, isStrEq_ne loc "Home" "Work" hh (by decide)]
            have ih := foldAddresses_spec included rs (homeUpd info rec) htail
            have key : applyAddressesSpec (r :: rs) included info
                = applyAddressesSpec rs included (homeUpd info rec) := by
              simp only [applyAddressesSpec, lastAddressAt, resolvedRecs,
                List.filterMap_cons, hl, List.filter_cons, hlocH, hlocW, if_true,
                if_false, reduceIte]
              rw [getLast?_cons_getD]
              cases hA : ((rs.filterMap (fun x => lookupIncluded included x.id)).filter
                  (fun x => locatedAt x "Home")).getLast? with
              | none => simp [hA]
              | some b => simp [hA, homeUpd_homeUpd]
            simp only [List.foldlM_cons, processAddressRef, hl, hloc, hh, if_true,
              reduceIte, Option.some_bind]
            rw [key]
            exact ih
        | false =>
            cases hw : isStrEq loc "Work" with
            | true =>
                have hlocH : locatedAt rec "Home" = false := by
                  simp [locatedAt, hloc, hh]
                have hlocW : locatedAt rec "Work" = true := by
                  simp [locatedAt, hloc, hw]
                have ih := foldAddresses_spec included rs (workUpd info rec) htail
                have key : applyAddressesSpec (r :: rs) included info
                    = applyAddressesSpec rs included (workUpd info rec) := by
                  simp only [applyAddressesSpec, lastAddressAt, resolvedRecs,
                    List.filterMap_cons, hl, List.filter_cons, hlocH, hlocW, if_true,
                    if_false, reduceIte]
                  rw [getLast?_cons_getD]
                  cases hA : ((rs.filterMap (fun x => lookupIncluded included x.id)).filter
                      (fun x => locatedAt x "Home")).getLast? with
                  | none =>
                      cases hB : ((rs.filterMap (fun x => lookupIncluded included x.id)).filter
                          (fun x => locatedAt x "Work")).getLast? with
                      | none => simp [hA, hB]
                      | some b => simp [hA, hB, workUpd_workUpd]
                  | some hb =>
                      cases hB : ((rs.filterMap (fun x => lookupIncluded included x.id)).filter
                          (fun x => locatedAt x "Work")).getLast? with
                      | none => simp [hA, hB, homeUpd_workUpd]
                      | some b => simp [hA, hB, homeUpd_workUpd, workUpd_workUpd]
                simp only [List.foldlM_cons, processAddressRef, hl, hloc, hh, hw,
                  if_false, if_true, reduceIte, Option.some_bind]
                rw [key]
                exact ih
            | false =>
                have hlocH : locatedAt rec "Home" = false := by
                  simp [locatedAt, hloc, hh]
                have hlocW : locatedAt rec "Work" = false := by
                  simp [locatedAt, hloc, hw]
                have ih := foldAddresses_spec included rs info htail
                simp [List.foldlM_cons, processAddressRef, hl, hloc, hh, hw, ih,
                  applyAddressesSpec, lastAddressAt, resolvedRecs, List.filterMap_cons,
                  List.filter_cons, hlocH, hlocW]

/-- One relationship entry processed by the code equals its spec-side
effect. -/
theorem processRel_spec (included : List Rec) (info : PersonInfo)
    (rel_type : String) (rel_data : List RelRef)
    (h : relEntryWF included rel_type rel_data) :
    processRel included info rel_type rel_data
      = some (applyRelSpec included info rel_type rel_data) := by
  unfold processRel applyRelSpec
  by_cases h1 : rel_type = "phone_numbers"
  · subst h1
    rw [if_pos rfl, if_pos rfl]
    exact foldPhones_spec included rel_data info h
  · rw [if_neg h1, if_neg h1]
    by_cases h2 : rel_type = "emails"
    · subst h2
      rw [if_pos rfl, if_pos rfl]
      exact foldEmails_spec included rel_data info h
    · rw [if_neg h2, if_neg h2]
      by_cases h3 : rel_type = "addresses"
      · subst h3
        rw [if_pos rfl, if_pos rfl]
        exact foldAddresses_spec included rel_data info h
      · rw [if_neg h3, if_neg h3]
        by_cases h4 : rel_type = "households"
        · subst h4
          rw [if_pos rfl, if_pos rfl]
          exact foldHouseholds_spec included rel_data info h
        · rw [if_neg h4, if_neg h4]

/-- Folding the whole relationships list: the code's monadic fold equals
the spec-side pure fold. -/
theorem foldRels_spec (included : List Rec) :
    ∀ (l : List (String × List RelRef)) (info : PersonInfo),
      (∀ e ∈ l, relEntryWF included e.1 e.2) →
      l.foldlM (fun i e => processRel included i e.1 e.2) info
        = some (l.foldl (fun i e => applyRelSpec included i e.1 e.2) info)
  | [], _, _ => rfl
  | e :: es, info, h => by
      have he := h e (List.mem_cons_self e es)
      have ih := foldRels_spec included es (applyRelSpec included info e.1 e.2)
        (fun x hx => h x (List.mem_cons_of_mem e hx))
      simp [List.foldlM_cons, processRel_spec included info e.1 e.2 he, ih]

/-- On processable input the code's flattening succeeds and equals the
spec-side flattening. -/
theorem flattenPerson_eq_spec (person : PersonRec) (included : List Rec)
    (h : personWF person included) :
    flattenPerson person included = some (flattenPersonSpec person included) :=
  foldRels_spec included person.relationships (initPersonInfo person) h

/-- A field untouched by every entry of a list of relationship entries is
preserved by the spec-side fold. -/
theorem foldl_applyRelSpec_frame {β : Type} (included : List Rec) (K : String)
    (f : PersonInfo → β)
    (hframe : ∀ info rt rd, rt ≠ K → f (applyRelSpec included info rt rd) = f info) :
    ∀ (l : List (String × List RelRef)) (info : PersonInfo),
      (∀ e ∈ l, e.1 ≠ K) →
      f (l.foldl (fun i e => applyRelSpec included i e.1 e.2) info) = f info
  | [], _, _ => rfl
  | e :: es, info, h => by
      rw [List.foldl_cons,
        foldl_applyRelSpec_frame included K f hframe es _
          (fun x hx => h x (List.mem_cons_of_mem e hx)),
        hframe info e.1 e.2 (h e (List.mem_cons_self e es))]

/-- With unique relationship keys, a field of the spec-side fold is the
initial field value transformed by the effect of the single entry keyed
`K`, if present. -/
theorem foldl_applyRelSpec_key {β : Type} (included : List Rec) (K : String)
    (f : PersonInfo → β) (g : List RelRef → β → β)
    (hnil : ∀ x, g [] x = x)
    (hframe : ∀ info rt rd, rt ≠ K → f (applyRelSpec included info rt rd) = f info)
    (heff : ∀ info rd, f (applyRelSpec included info K rd) = g rd (f info)) :
    ∀ (l : List (String × List RelRef)) (info : PersonInfo),
      (l.map Prod.fst).Nodup →
      f (l.foldl (fun i e => applyRelSpec included i e.1 e.2) info)
        = g ((dictGet l K).getD []) (f info)
  | [], info, _ => by simp [dictGet, hnil]
  | e :: es, info, hnd => by
      simp only [List.map_cons, List.nodup_cons] at hnd
      by_cases hK : e.1 = K
      · have hes : ∀ x ∈ es, x.1 ≠ K := by
          intro x hx heq
          exact hnd.1 (hK ▸ heq ▸ List.mem_map_of_mem Prod.fst hx)
        rw [List.foldl_cons,
          foldl_applyRelSpec_frame included K f hframe es _ hes,
          hK, heff info e.2]
        have : dictGet (e :: es) K = some e.2 := by
          simp [dictGet, List.find?_cons, hK]
        rw [this, Option.getD_some]
      · have ih := foldl_applyRelSpec_key included K f g hnil hframe heff es
          (applyRelSpec included info e.1 e.2) hnd.2
        rw [List.foldl_cons, ih, hframe info e.1 e.2 hK]
        have : dictGet (e :: es) K = dictGet es K := by
          simp [dictGet, List.find?_cons, hK]
        rw [this]

/-- Only the households entry touches `household_count`. -/
theorem applyRelSpec_hc_frame (included : List Rec) (info : PersonInfo)
    (rt : String) (rd : List RelRef) (h : rt ≠ "households") :
    (applyRelSpec included info rt rd).household_count = info.household_count := by
  unfold applyRelSpec applyAddressesSpec
  split_ifs
  all_goals first
    | rfl
    | (exact absurd (by assumption) h)
    | (cases lastAddressAt rd included "Home" <;> cases lastAddressAt rd included "Work" <;>
        simp [homeUpd, workUpd])

/-- The households entry adds the spec-side sum to `household_count`. -/
theorem applyRelSpec_hc_eff (included : List Rec) (info : PersonInfo)
    (rd : List RelRef) :
    (applyRelSpec included info "households" rd).household_count
      = info.household_count + householdCountSpec rd included := by
  unfold applyRelSpec
  rw [if_neg (by decide), if_neg (by decide), if_neg (by decide), if_pos rfl]

/-- Only the phone_numbers entry touches `phone_numbers`. -/
theorem applyRelSpec_phones_frame (included : List Rec) (info : PersonInfo)
    (rt : String) (rd : List RelRef) (h : rt ≠ "phone_numbers") :
    (applyRelSpec included info rt rd).phone_numbers = info.phone_numbers := by
  unfold applyRelSpec applyAddressesSpec
  split_ifs
  all_goals first
    | rfl
    | (exact absurd (by assumption) h)
    | (cases lastAddressAt rd included "Home" <;> cases lastAddressAt rd included "Work" <;>
        simp [homeUpd, workUpd])

/-- The phone_numbers entry appends the spec-side phone list. -/
theorem applyRelSpec_phones_eff (included : List Rec) (info : PersonInfo)
    (rd : List RelRef) :
    (applyRelSpec included info "phone_numbers" rd).phone_numbers
      = info.phone_numbers ++ phoneNumbersSpec rd included := by
  unfold applyRelSpec
  rw [if_pos rfl]

/-- Only the emails entry touches `emails`. -/
theorem applyRelSpec_emails_frame (included : List Rec) (info : PersonInfo)
    (rt : String) (rd : List RelRef) (h : rt ≠ "emails") :
    (applyRelSpec included info rt rd).emails = info.emails := by
  unfold applyRelSpec applyAddressesSpec
  split_ifs
  all_goals first
    | rfl
    | (exact absurd (by assumption) h)
    | (cases lastAddressAt rd included "Home" <;> cases lastAddressAt rd included "Work" <;>
        simp [homeUpd, workUpd])

/-- The emails entry appends the spec-side email list. -/
theorem applyRelSpec_emails_eff (included : List Rec) (info : PersonInfo)
    (rd : List RelRef) :
    (applyRelSpec included info "emails" rd).emails
      = info.emails ++ emailsSpec rd included := by
  unfold applyRelSpec
  rw [if_neg (by decide), if_pos rfl]

/-- Only the addresses entry touches the eight address fields. -/
theorem applyRelSpec_addr_frame (included : List Rec) (info : PersonInfo)
    (rt : String) (rd : List RelRef) (h : rt ≠ "addresses") :
    addrFields (applyRelSpec included info rt rd) = addrFields info := by
  unfold applyRelSpec
  split_ifs
  all_goals first
    | rfl
    | (exact absurd (by assumption) h)

/-- The addresses entry applies the last-of-each-type overwrite to the
eight address fields. -/
theorem applyRelSpec_addr_eff (included : List Rec) (info : PersonInfo)
    (rd : List RelRef) :
    addrFields (applyRelSpec included info "addresses" rd)
      = addrEffect included rd (addrFields info) := by
  unfold applyRelSpec
  rw [if_neg (by decide), if_neg (by decide), if_pos rfl]
  unfold applyAddressesSpec addrEffect addrFields
  cases lastAddressAt rd included "Home" <;> cases lastAddressAt rd included "Work" <;>
    simp [homeUpd, workUpd]

/-- C2: on processable data with unique relationship keys, the flattened
`household_count` is exactly the sum, over the ids of the households
relationship array that resolve in `included` to a record whose declared
type is `"Household"`, of `member_count` with 0 substituted when absent;
it is 0 when the relationship is absent or nothing resolves, and several
households accumulate additively. -/
theorem flattenPerson_household_count (person : PersonRec) (included : List Rec)
    (hwf : personWF person included)
    (hnd : (person.relationships.map Prod.fst).Nodup) :
    (flattenPerson person included).map PersonInfo.household_count
      = some (householdCountSpec
          ((dictGet person.relationships "households").getD []) included) := by
  rw [flattenPerson_eq_spec person included hwf]
  have h := foldl_applyRelSpec_key included "households" PersonInfo.household_count
    (fun rd x => x + householdCountSpec rd included)
    (by intro x; simp [householdCountSpec, resolvedRecs])
    (fun info rt rd hne => applyRelSpec_hc_frame included info rt rd hne)
    (fun info rd => applyRelSpec_hc_eff included info rd)
    person.relationships (initPersonInfo person) hnd
  unfold flattenPersonSpec
  rw [Option.map_some', h]
  simp [initPersonInfo]

/-- Witness for `flattenPerson_household_count`: two resolved households
with member counts 3 and 4 flatten to household_count 7. -/
theorem flattenPerson_household_count_witness :
    (flattenPerson
        { id := "p1", attributes := [],
          relationships := [("households",
            [{ id := "h1", type := "Household" }, { id := "h2", type := "Household" }])] }
        [{ id := "h1", type := "Household", attributes := [("member_count", Value.int 3)] },
         { id := "h2", type := "Household", attributes := [("member_count", Value.int 4)] }]).map
      PersonInfo.household_count = some 7 := by
  have h := flattenPerson_household_count
    { id := "p1", attributes := [],
      relationships := [("households",
        [{ id := "h1", type := "Household" }, { id := "h2", type := "Household" }])] }
    [{ id := "h1", type := "Household", attributes := [("member_count", Value.int 3)] },
     { id := "h2", type := "Household", attributes := [("member_count", Value.int 4)] }]
    (by unfold personWF relEntryWF; decide) (by decide)
  rw [h]
  rfl

/-- C4: on processable data with unique relationship keys, the flattened
phone and email lists are exactly the `number` / `address` attributes of
the records the relationship arrays resolve to, in array order; ids
absent from `included` are skipped without raising and contribute no
entry. -/
theorem flattenPerson_contact_lists (person : PersonRec) (included : List Rec)
    (hwf : personWF person included)
    (hnd : (person.relationships.map Prod.fst).Nodup) :
    (flattenPerson person included).map PersonInfo.phone_numbers
        = some (phoneNumbersSpec
            ((dictGet person.relationships "phone_numbers").getD []) included)
      ∧ (flattenPerson person included).map PersonInfo.emails
        = some (emailsSpec
            ((dictGet person.relationships "emails").getD []) included) := by
  rw [flattenPerson_eq_spec person included hwf]
  constructor
  · have h := foldl_applyRelSpec_key included "phone_numbers" PersonInfo.phone_numbers
      (fun rd x => x ++ phoneNumbersSpec rd included)
      (by intro x; simp [phoneNumbersSpec])
      (fun info rt rd hne => applyRelSpec_phones_frame included info rt rd hne)
      (fun info rd => applyRelSpec_phones_eff included info rd)
      person.relationships (initPersonInfo person) hnd
    unfold flattenPersonSpec
    rw [Option.map_some', h]
    simp [initPersonInfo]
  · have h := foldl_applyRelSpec_key included "emails" PersonInfo.emails
      (fun rd x => x ++ emailsSpec rd included)
      (by intro x; simp [emailsSpec])
      (fun info rt rd hne => applyRelSpec_emails_frame included info rt rd hne)
      (fun info rd => applyRelSpec_emails_eff included info rd)
      person.relationships (initPersonInfo person) hnd
    unfold flattenPersonSpec
    rw [Option.map_some', h]
    simp [initPersonInfo]

/-- Witness for `flattenPerson_contact_lists`: two phone ids of which the
second is unresolved yield a one-entry list; one resolved email id yields
its address. -/
theorem flattenPerson_contact_lists_witness :
    (flattenPerson
        { id := "p1", attributes := [],
          relationships :=
            [("phone_numbers", [{ id := "ph1", type := "PhoneNumber" },
                                { id := "ph9", type := "PhoneNumber" }]),
             ("emails", [{ id := "em1", type := "Email" }])] }
        [{ id := "ph1", type := "PhoneNumber", attributes := [("number", Value.str "555-1234")] },
         { id := "em1", type := "Email", attributes := [("address", Value.str "a@b.c")] }]).map
      PersonInfo.phone_numbers = some [Value.str "555-1234"]
    ∧ (flattenPerson
        { id := "p1", attributes := [],
          relationships :=
            [("phone_numbers", [{ id := "ph1", type := "PhoneNumber" },
                                { id := "ph9", type := "PhoneNumber" }]),
             ("emails", [{ id := "em1", type := "Email" }])] }
        [{ id := "ph1", type := "PhoneNumber", attributes := [("number", Value.str "555-1234")] },
         { id := "em1", type := "Email", attributes := [("address", Value.str "a@b.c")] }]).map
      PersonInfo.emails = some [Value.str "a@b.c"] := by
  have h := flattenPerson_contact_lists
    { id := "p1", attributes := [],
      relationships :=
        [("phone_numbers", [{ id := "ph1", type := "PhoneNumber" },
                            { id := "ph9", type := "PhoneNumber" }]),
         ("emails", [{ id := "em1", type := "Email" }])] }
    [{ id := "ph1", type := "PhoneNumber", attributes := [("number", Value.str "555-1234")] },
     { id := "em1", type := "Email", attributes := [("address", Value.str "a@b.c")] }]
    (by unfold personWF relEntryWF; decide) (by decide)
  exact ⟨by rw [h.1]; rfl, by rw [h.2]; rfl⟩

/-- C3: on processable data with unique relationship keys, the four home
fields carry the street/city/state/zip of the last resolved address whose
`location` is exactly `"Home"` (none if there is none), and the four work
fields those of the last resolved address whose `location` is exactly
`"Work"`; the two groups are determined independently, and a later
address of a type fully overwrites all four fields of that type. -/
theorem flattenPerson_address_fields (person : PersonRec) (included : List Rec)
    (hwf : personWF person included)
    (hnd : (person.relationships.map Prod.fst).Nodup) :
    (flattenPerson person included).map PersonInfo.home_street
        = some ((lastAddressAt ((dictGet person.relationships "addresses").getD [])
            included "Home").bind (fun a => dictGet a.attributes "street"))
    ∧ (flattenPerson person included).map PersonInfo.home_city
        = some ((lastAddressAt ((dictGet person.relationships "addresses").getD [])
            included "Home").bind (fun a => dictGet a.attributes "city"))
    ∧ (flattenPerson person included).map PersonInfo.home_state
        = some ((lastAddressAt ((dictGet person.relationships "addresses").getD [])
            included "Home").bind (fun a => dictGet a.attributes "state"))
    ∧ (flattenPerson person included).map PersonInfo.home_zip
        = some ((lastAddressAt ((dictGet person.relationships "addresses").getD [])
            included "Home").bind (fun a => dictGet a.attributes "zip"))
    ∧ (flattenPerson person included).map PersonInfo.work_street
        = some ((lastAddressAt ((dictGet person.relationships "addresses").getD [])
            included "Work").bind (fun a => dictGet a.attributes "street"))
    ∧ (flattenPerson person included).map PersonInfo.work_city
        = some ((lastAddressAt ((dictGet person.relationships "addresses").getD [])
            included "Work").bind (fun a => dictGet a.attributes "city"))
    ∧ (flattenPerson person included).map PersonInfo.work_state
        = some ((lastAddressAt ((dictGet person.relationships "addresses").getD [])
            included "Work").bind (fun a => dictGet a.attributes "state"))
    ∧ (flattenPerson person included).map PersonInfo.work_zip
        = some ((lastAddressAt ((dictGet person.relationships "addresses").getD [])
            included "Work").bind (fun a => dictGet a.attributes "zip")) := by
  rw [flattenPerson_eq_spec person included hwf]
  have h := foldl_applyRelSpec_key included "addresses" addrFields
    (addrEffect included)
    (fun _ => rfl)
    (fun info rt rd hne => applyRelSpec_addr_frame included info rt rd hne)
    (fun info rd => applyRelSpec_addr_eff included info rd)
    person.relationships (initPersonInfo person) hnd
  have h' : addrFields (flattenPersonSpec person included)
      = addrEffect included ((dictGet person.relationships "addresses").getD [])
          ((none, none, none, none), (none, none, none, none)) := h
  cases hH : lastAddressAt ((dictGet person.relationships "addresses").getD [])
      included "Home" <;>
    cases hW : lastAddressAt ((dictGet person.relationships "addresses").getD [])
      included "Work" <;>
    (simp only [addrEffect, hH, hW, addrFields, Prod.mk.injEq] at h';
     refine ⟨?_, ?_, ?_, ?_, ?_, ?_, ?_, ?_⟩ <;>
       simp [Option.map_some', hH, hW, h'])

/-- Witness for `flattenPerson_address_fields`: two home addresses (the
second overwrites the first, including its absent zip) and one work
address populate the two groups independently. -/
theorem flattenPerson_address_fields_witness :
    (flattenPerson
        { id := "p1", attributes := [],
          relationships := [("addresses",
            [{ id := "a1", type := "Address" }, { id := "a2", type := "Address" },
             { id := "a3", type := "Address" }])] }
        [{ id := "a1", type := "Address",
           attributes := [("location", Value.str "Home"), ("street", Value.str "1 Old St"),
             ("city", Value.str "Oldtown"), ("state", Value.str "CA"),
             ("zip", Value.str "11111")] },
         { id := "a2", type := "Address",
           attributes := [("location", Value.str "Home"), ("street", Value.str "2 New St"),
             ("city", Value.str "Newtown"), ("state", Value.str "NY")] },
         { id := "a3", type := "Address",
           attributes := [("location", Value.str "Work"), ("street", Value.str "3 Work Rd"),
             ("city", Value.str "Workville"), ("state", Value.str "WA"),
             ("zip", Value.str "33333")] }]).map
      PersonInfo.home_street = some (some (Value.str "2 New St")) := by
  have h := flattenPerson_address_fields
    { id := "p1", attributes := [],
      relationships := [("addresses",
        [{ id := "a1", type := "Address" }, { id := "a2", type := "Address" },
         { id := "a3", type := "Address" }])] }
    [{ id := "a1", type := "Address",
       attributes := [("location", Value.str "Home"), ("street", Value.str "1 Old St"),
         ("city", Value.str "Oldtown"), ("state", Value.str "CA"),
         ("zip", Value.str "11111")] },
     { id := "a2", type := "Address",
       attributes := [("location", Value.str "Home"), ("street", Value.str "2 New St"),
         ("city", Value.str "Newtown"), ("state", Value.str "NY")] },
     { id := "a3", type := "Address",
       attributes := [("location", Value.str "Work"), ("street", Value.str "3 Work Rd"),
         ("city", Value.str "Workville"), ("state", Value.str "WA"),
         ("zip", Value.str "33333")] }]
    (by unfold personWF relEntryWF; decide) (by decide)
  rw [h.1]
  rfl

/-! ### The limit behaviour of the paginated people fetch -/

/-- `flattenPages` unfolded over a cons. -/
theorem flattenPages_cons (pg : PeoplePage) (gs : List PeoplePage) :
    flattenPages (pg :: gs)
      = pg.data.filterMap (fun p => flattenPerson p pg.included) ++ flattenPages gs := by
  simp [flattenPages]

/-- When every person flattens, the page flattening has one record per
person. -/
theorem flattenPages_length :
    ∀ pages : List PeoplePage,
      (∀ pg ∈ pages, ∀ p ∈ pg.data, (flattenPerson p pg.included).isSome = true) →
      (flattenPages pages).length = peopleTotal pages
  | [], _ => rfl
  | pg :: gs, h => by
      rw [flattenPages_cons, List.length_append,
        filterMap_length_of_isSome _ pg.data (h pg (List.mem_cons_self pg gs)),
        flattenPages_length gs (fun x hx => h x (List.mem_cons_of_mem pg hx)),
        peopleTotal_cons]

/-- Pages with no person records flatten to nothing. -/
theorem flattenPages_eq_nil_of_total_zero :
    ∀ pages : List PeoplePage, peopleTotal pages = 0 → flattenPages pages = []
  | [], _ => rfl
  | pg :: gs, h => by
      rw [peopleTotal_cons] at h
      have hdata : pg.data = [] := List.length_eq_zero.mp (by omega)
      rw [flattenPages_cons, hdata,
        flattenPages_eq_nil_of_total_zero gs (by omega)]
      rfl

/-- `chainNexts` on a chain of at least two pages. -/
theorem chainNexts_cons_cons (pg g : PeoplePage) (gs : List PeoplePage) :
    chainNexts (pg :: g :: gs) = (pg.next && chainNexts (g :: gs)) := rfl

/-- `lastNoNext` ignores a leading page of a chain of at least two. -/
theorem lastNoNext_cons_cons (pg g : PeoplePage) (gs : List PeoplePage) :
    lastNoNext (pg :: g :: gs) = lastNoNext (g :: gs) := rfl

/-- The per-page person loop appends exactly the page's flattening
truncated at the remaining capacity `limit - acc.length`. -/
theorem processPagePersons_take (limit : Nat) (included : List Rec) :
    ∀ (ps : List PersonRec) (acc : List PersonInfo),
      (∀ p ∈ ps, (flattenPerson p included).isSome = true) →
      processPagePersons limit included ps acc
        = some (acc ++ (ps.filterMap (fun p => flattenPerson p included)).take
            (limit - acc.length))
  | [], acc, _ => by simp [processPagePersons]
  | p :: rest, acc, hok => by
      by_cases hlt : limit ≤ acc.length
      · have h0 : limit - acc.length = 0 := Nat.sub_eq_zero_of_le hlt
        simp [processPagePersons, hlt, h0]
      · obtain ⟨info, hinfo⟩ :=
          Option.isSome_iff_exists.mp (hok p (List.mem_cons_self p rest))
        have ih := processPagePersons_take limit included rest (acc ++ [info])
          (fun x hx => hok x (List.mem_cons_of_mem p hx))
        obtain ⟨k, hk⟩ : ∃ k, limit - acc.length = k + 1 :=
          ⟨limit - acc.length - 1, by omega⟩
        have hk2 : limit - (acc ++ [info]).length = k := by
          simp only [List.length_append, List.length_cons, List.length_nil]
          omega
        simp only [processPagePersons, hlt, if_false, reduceIte, hinfo]
        rw [ih, hk2, List.filterMap_cons, hinfo, hk, List.take_succ_cons,
          List.append_assoc, List.singleton_append]

/-- When the limit falls inside the pages given, the loop stops there:
any continuation of the chain is never requested and the result is the
truncated flattening. -/
theorem fetch_people_loop_take (limit : Nat) :
    ∀ (pages rest : List PeoplePage) (acc : List PersonInfo),
      (∀ pg ∈ pages, 200 ≤ pg.status ∧ pg.status < 300) →
      (∀ pg ∈ pages, ∀ p ∈ pg.data, (flattenPerson p pg.included).isSome = true) →
      chainNexts pages = true →
      pages ≠ [] →
      limit ≤ acc.length + peopleTotal pages →
      acc.length ≤ limit →
      fetch_people_loop limit (pages ++ rest) acc
        = some (acc ++ (flattenPages pages).take (limit - acc.length))
  | [], _, _, _, _, _, hne, _, _ => absurd rfl hne
  | pg :: gs, rest, acc, hst, hok, hnx, _, hlim, hacc => by
      have hpg := hst pg (List.mem_cons_self pg gs)
      have hokpg := hok pg (List.mem_cons_self pg gs)
      have hproc := processPagePersons_take limit pg.included pg.data acc hokpg
      have hflatlen : (pg.data.filterMap (fun p => flattenPerson p pg.included)).length
          = pg.data.length := filterMap_length_of_isSome _ pg.data hokpg
      rw [peopleTotal_cons] at hlim
      have hacclen : (acc ++ (pg.data.filterMap (fun p => flattenPerson p pg.included)).take
          (limit - acc.length)).length
          = acc.length + min (limit - acc.length) pg.data.length := by
        simp [List.length_take, hflatlen]
      simp only [List.cons_append, fetch_people_loop, hpg.1, hpg.2, and_self, if_true,
        reduceIte, hproc]
      by_cases hdone : limit ≤ (acc ++ (pg.data.filterMap
          (fun p => flattenPerson p pg.included)).take (limit - acc.length)).length
      · -- the limit is reached on this page
        have harith := hdone
        rw [hacclen] at harith
        have htake : limit - acc.length ≤
            (pg.data.filterMap (fun p => flattenPerson p pg.included)).length := by
          rw [hflatlen]; omega
        rw [if_pos hdone, flattenPages_cons, List.take_append_of_le_length htake]
      · -- the page is exhausted below the limit: continue with the next page
        have harith := hdone
        rw [hacclen] at harith
        have hflatlt :
            (pg.data.filterMap (fun p => flattenPerson p pg.included)).length
              < limit - acc.length := by
          rw [hflatlen]; omega
        have htakeall : (pg.data.filterMap (fun p => flattenPerson p pg.included)).take
            (limit - acc.length) = pg.data.filterMap (fun p => flattenPerson p pg.included) :=
          List.take_of_length_le (le_of_lt hflatlt)
        cases gs with
        | nil =>
            exfalso
            rw [hflatlen] at hflatlt
            simp only [peopleTotal, List.map_nil, List.sum_nil] at hlim
            omega
        | cons g gs' =>
            have hnx1 : pg.next = true := by
              rw [chainNexts_cons_cons, Bool.and_eq_true] at hnx
              exact hnx.1
            have hnx2 : chainNexts (g :: gs') = true := by
              rw [chainNexts_cons_cons, Bool.and_eq_true] at hnx
              exact hnx.2
            have ih := fetch_people_loop_take limit (g :: gs') rest
              (acc ++ pg.data.filterMap (fun p => flattenPerson p pg.included))
              (fun x hx => hst x (List.mem_cons_of_mem pg hx))
              (fun x hx => hok x (List.mem_cons_of_mem pg hx))
              hnx2 (List.cons_ne_nil g gs')
              (by simp only [List.length_append, hflatlen]; omega)
              (by simp only [List.length_append, hflatlen]; omega)
            simp only [List.cons_append] at ih
            rw [if_neg hdone, htakeall, hnx1, if_pos rfl]
            simp only [List.append_eq, List.cons_append]
            have hk : limit - (acc ++ pg.data.filterMap
                (fun p => flattenPerson p pg.included)).length
                = limit - acc.length
                  - (pg.data.filterMap (fun p => flattenPerson p pg.included)).length := by
              simp only [List.length_append]
              omega
            conv_rhs => rw [flattenPages_cons, List.take_append_eq_append_take, htakeall]
            rw [← List.append_assoc, ← hk]
            exact ih

/-- When the chain ends (no next link on its last page) before the limit
is reached, the loop returns the full flattening of every page. -/
theorem fetch_people_loop_all (limit : Nat) :
    ∀ (pages : List PeoplePage) (acc : List PersonInfo),
      (∀ pg ∈ pages, 200 ≤ pg.status ∧ pg.status < 300) →
      (∀ pg ∈ pages, ∀ p ∈ pg.data, (flattenPerson p pg.included).isSome = true) →
      chainNexts pages = true →
      lastNoNext pages = true →
      acc.length + peopleTotal pages ≤ limit →
      fetch_people_loop limit pages acc = some (acc ++ flattenPages pages)
  | [], acc, _, _, _, _, _ => by simp [fetch_people_loop, flattenPages]
  | pg :: gs, acc, hst, hok, hnx, hlast, hlim => by
      have hpg := hst pg (List.mem_cons_self pg gs)
      have hokpg := hok pg (List.mem_cons_self pg gs)
      have hproc := processPagePersons_take limit pg.included pg.data acc hokpg
      have hflatlen : (pg.data.filterMap (fun p => flattenPerson p pg.included)).length
          = pg.data.length := filterMap_length_of_isSome _ pg.data hokpg
      rw [peopleTotal_cons] at hlim
      have htakeall : (pg.data.filterMap (fun p => flattenPerson p pg.included)).take
          (limit - acc.length) = pg.data.filterMap (fun p => flattenPerson p pg.included) :=
        List.take_of_length_le (by rw [hflatlen]; omega)
      simp only [fetch_people_loop, hpg, and_true, if_true, reduceIte, hproc, htakeall]
      by_cases hdone : limit ≤
          (acc ++ pg.data.filterMap (fun p => flattenPerson p pg.included)).length
      · rw [if_pos hdone]
        have htot : peopleTotal gs = 0 := by
          simp only [List.length_append, hflatlen] at hdone
          omega
        rw [flattenPages_cons, flattenPages_eq_nil_of_total_zero gs htot,
          List.append_nil]
      · rw [if_neg hdone]
        cases gs with
        | nil =>
            have hnonext : pg.next = false := by
              simpa [lastNoNext] using hlast
            rw [hnonext, if_neg (by simp), flattenPages_cons]
            simp [flattenPages]
        | cons g gs' =>
            have hnx1 : pg.next = true := by
              rw [chainNexts_cons_cons, Bool.and_eq_true] at hnx
              exact hnx.1
            have hnx2 : chainNexts (g :: gs') = true := by
              rw [chainNexts_cons_cons, Bool.and_eq_true] at hnx
              exact hnx.2
            have hlast2 : lastNoNext (g :: gs') = true := by
              rw [lastNoNext_cons_cons] at hlast
              exact hlast
            have ih := fetch_people_loop_all limit (g :: gs')
              (acc ++ pg.data.filterMap (fun p => flattenPerson p pg.included))
              (fun x hx => hst x (List.mem_cons_of_mem pg hx))
              (fun x hx => hok x (List.mem_cons_of_mem pg hx))
              hnx2 hlast2
              (by simp only [List.length_append, hflatlen]; omega)
            rw [hnx1, if_pos rfl, ih]
            simp [flattenPages_cons, List.append_assoc]

/-- C1: for a well-formed chain of pages, (a) whenever the requested
limit falls within the pages given, the fetch returns exactly the first
`limit` flattened records of the concatenated `data` arrays in page
order — the rest of the cut page is discarded and no further page
(arbitrary continuation `rest`) is ever requested; (b) when the chain
ends before the limit is reached, every record is returned and the count
stays below the limit.  In both cases the result never exceeds `limit`
records. -/
theorem fetch_people_respects_limit (pages : List PeoplePage) (limit : Nat)
    (hst : ∀ pg ∈ pages, 200 ≤ pg.status ∧ pg.status < 300)
    (hok : ∀ pg ∈ pages, ∀ p ∈ pg.data, (flattenPerson p pg.included).isSome = true)
    (hnx : chainNexts pages = true) :
    (∀ rest : List PeoplePage, pages ≠ [] → limit ≤ peopleTotal pages →
        fetch_people (pages ++ rest) limit = some ((flattenPages pages).take limit))
      ∧ (peopleTotal pages ≤ limit → lastNoNext pages = true →
        fetch_people pages limit = some (flattenPages pages)
          ∧ (flattenPages pages).length ≤ limit) := by
  constructor
  · intro rest hne hlim
    have h := fetch_people_loop_take limit pages rest [] hst hok hnx hne
      (by simpa using hlim) (by simp)
    simpa [fetch_people] using h
  · intro hlim hlast
    have h := fetch_people_loop_all limit pages [] hst hok hnx hlast
      (by simpa using hlim)
    refine ⟨by simpa [fetch_people] using h, ?_⟩
    rw [flattenPages_length pages hok]
    exact hlim

/-- Witness for `fetch_people_respects_limit`: a 2-page chain with three
person records and limit 3; the continuation page would fail if it were
ever fetched. -/
theorem fetch_people_respects_limit_witness :
    fetch_people
        ([{ status := 200,
            data := [{ id := "p1", attributes := [], relationships := [] },
                     { id := "p2", attributes := [], relationships := [] }],
            included := [], next := true },
          { status := 200,
            data := [{ id := "p3", attributes := [], relationships := [] }],
            included := [], next := false }]
          ++ [{ status := 500, data := [], included := [], next := true }]) 3
      = some ((flattenPages
          [{ status := 200,
             data := [{ id := "p1", attributes := [], relationships := [] },
                      { id := "p2", attributes := [], relationships := [] }],
             included := [], next := true },
           { status := 200,
             data := [{ id := "p3", attributes := [], relationships := [] }],
             included := [], next := false }]).take 3)
    ∧ fetch_people
        [{ status := 200,
           data := [{ id := "p1", attributes := [], relationships := [] },
                    { id := "p2", attributes := [], relationships := [] }],
           included := [], next := true },
         { status := 200,
           data := [{ id := "p3", attributes := [], relationships := [] }],
           included := [], next := false }] 3
      = some (flattenPages
          [{ status := 200,
             data := [{ id := "p1", attributes := [], relationships := [] },
                      { id := "p2", attributes := [], relationships := [] }],
             included := [], next := true },
           { status := 200,
             data := [{ id := "p3", attributes := [], relationships := [] }],
             included := [], next := false }]) := by
  have h := fetch_people_respects_limit
    [{ status := 200,
       data := [{ id := "p1", attributes := [], relationships := [] },
                { id := "p2", attributes := [], relationships := [] }],
       included := [], next := true },
     { status := 200,
       data := [{ id := "p3", attributes := [], relationships := [] }],
       included := [], next := false }] 3
    (by decide) (by decide) (by decide)
  exact ⟨h.1 [{ status := 500, data := [], included := [], next := true }]
      (by simp) (by decide),
    (h.2 (by decide) (by decide)).1⟩

end PCT
